import Mathlib

/-!
Verification development for the aiowamp WAMP client library.

The Python source is shallowly embedded: pure functions become Lean
functions, stateful methods become explicit state passing on structures,
Python dictionaries become insertion-ordered association lists, fallible
code returns Except, and asynchronous methods are modelled as atomic
state transitions that additionally report the list of messages written
to the transport (asyncio is cooperatively scheduled, so every code
region between two suspension points executes atomically).
-/

set_option linter.unusedVariables false

namespace Aiowamp

/-- WAMP option / detail values as used by the client code paths under
study (integers, strings, booleans).  `src/aiowamp/serialization.py` -/
inductive WV where
  | i (n : Int)
  | s (v : String)
  | b (v : Bool)
deriving DecidableEq, Repr

/-- Python truthiness of a WAMP value. -/
def WV.truthy : WV → Bool
  | .i n => n != 0
  | .s v => v != ""
  | .b v => v

/-- Generic association-list lookup (Python dict with keys of type κ;
CPython dicts preserve insertion order). -/
def lookupA [BEq κ] (l : List (κ × α)) (k : κ) : Option α :=
  (l.find? (fun p => p.1 == k)).map (fun p => p.2)

/-- Generic association-list update, `d[k] = v`: update in place if the
key exists, else append. -/
def setA [BEq κ] (l : List (κ × α)) (k : κ) (v : α) : List (κ × α) :=
  if (l.find? (fun p => p.1 == k)).isSome then
    l.map (fun p => if p.1 == k then (k, v) else p)
  else
    l ++ [(k, v)]

/-- Generic association-list delete, `del d[k]` (with the KeyError
suppressed at the call sites that use this). -/
def eraseA [BEq κ] (l : List (κ × α)) (k : κ) : List (κ × α) :=
  l.filter (fun p => p.1 != k)

/-- A Python dict with string keys. -/
abbrev WDict := List (String × WV)

/-- `d.get(k)` / `d[k]` lookup. -/
def wdGet (d : WDict) (k : String) : Option WV :=
  lookupA d k

/-- `d[k] = v`. -/
def wdSet (d : WDict) (k : String) (v : WV) : WDict :=
  setA d k v

/-- `del d[k]`. -/
def wdErase (d : WDict) (k : String) : WDict :=
  eraseA d k

/-- Truthiness of `d.get(k)`: `None` is falsy. -/
def truthyOpt : Option WV → Bool
  | none => false
  | some v => v.truthy

/-- The exception taxonomy of `src/aiowamp/errors.py`, restricted to the
exception classes raised on the code paths under study.
`genericException` stands for a bare Python `Exception` (as raised by
the two `# TODO raise` sites in `transports/raw_socket.py`). -/
inductive Exc where
  | transportError (msg : String)
  | authError (msg : String)
  | abortError (reason : String)
  | unexpectedMessageError
  | clientClosed
  | runtimeError (msg : String)
  | keyError (msg : String)
  | typeError (msg : String)
  | valueError (msg : String)
  | genericException
deriving DecidableEq, Repr

/-- The WAMP message variants (`src/aiowamp/message.py`), with the typed
fields each variant carries.  Payload args/kwargs are optional, exactly
as in the message classes. -/
inductive Message where
  | hello (realm : String) (details : WDict)
  | welcome (session_id : Nat) (details : WDict)
  | abort (details : WDict) (reason : String)
  | challenge (auth_method : String) (extra : WDict)
  | authenticate (signature : String) (extra : WDict)
  | goodbye (details : WDict) (reason : String)
  | error (msg_type : Nat) (request_id : Nat) (details : WDict) (uri : String)
      (args : Option (List WV)) (kwargs : Option WDict)
  | publish (request_id : Nat) (options : WDict) (topic : String)
      (args : Option (List WV)) (kwargs : Option WDict)
  | published (request_id : Nat) (publication_id : Nat)
  | subscribe (request_id : Nat) (options : WDict) (topic : String)
  | subscribed (request_id : Nat) (subscription_id : Nat)
  | unsubscribe (request_id : Nat) (subscription_id : Nat)
  | unsubscribed (request_id : Nat)
  | event (subscription_id : Nat) (publication_id : Nat) (details : WDict)
      (args : Option (List WV)) (kwargs : Option WDict)
  | call (request_id : Nat) (options : WDict) (procedure : String)
      (args : Option (List WV)) (kwargs : Option WDict)
  | cancel (request_id : Nat) (options : WDict)
  | result (request_id : Nat) (details : WDict)
      (args : Option (List WV)) (kwargs : Option WDict)
  | register (request_id : Nat) (options : WDict) (procedure : String)
  | registered (request_id : Nat) (registration_id : Nat)
  | unregister (request_id : Nat) (registration_id : Nat)
  | unregistered (request_id : Nat)
  | invocation (request_id : Nat) (registration_id : Nat) (details : WDict)
      (args : Option (List WV)) (kwargs : Option WDict)
  | interrupt (request_id : Nat) (options : WDict)
  | yieldMsg (request_id : Nat) (options : WDict)
      (args : Option (List WV)) (kwargs : Option WDict)
deriving DecidableEq, Repr

/-- `getattr(msg, "request_id")`: the variants that carry a
`request_id` attribute in `src/aiowamp/message.py`. -/
def Message.requestId? : Message → Option Nat
  | .error _ rid _ _ _ _ => some rid
  | .publish rid _ _ _ _ => some rid
  | .published rid _ => some rid
  | .subscribe rid _ _ => some rid
  | .subscribed rid _ => some rid
  | .unsubscribe rid _ => some rid
  | .unsubscribed rid => some rid
  | .call rid _ _ _ _ => some rid
  | .cancel rid _ => some rid
  | .result rid _ _ _ => some rid
  | .register rid _ _ => some rid
  | .registered rid _ => some rid
  | .unregister rid _ => some rid
  | .unregistered rid => some rid
  | .invocation rid _ _ _ _ => some rid
  | .interrupt rid _ => some rid
  | .yieldMsg rid _ _ _ => some rid
  | _ => none

/-- `list(args) or None` — Python converts positional arguments to a
list and replaces the empty list by `None`. -/
def listOrNone (args : List WV) : Option (List WV) :=
  if args.isEmpty then none else some args

/-! ## `src/aiowamp/id.py` — sequential ID generator -/

/-- `MAX_ID = 1 << 53`. -/
def MAX_ID : Nat := 1 <<< 53

namespace IDGenerator

/-- `IDGenerator.next`: the generator state is the private counter
`self.__id` (0 after `__init__`).  Returns the generated id together
with the new counter (which the source keeps equal to the returned id). -/
def next (s : Nat) : Nat × Nat :=
  let id := s + 1
  let id := if id > MAX_ID then 1 else id
  (id, id)

/-- The ids produced by `n` successive calls of `IDGenerator.next`
starting from counter state `s`. -/
def run (s : Nat) : Nat → List Nat
  | 0 => []
  | n + 1 =>
    let (v, s2) := next s
    v :: run s2 n

end IDGenerator

/-! ## `src/aiowamp/uri.py` — prefix matching

Python strings are modelled as lists of characters; `str.startswith`
becomes `List.isPrefixOf` and `uri[len(prefix)]` becomes
`List.get?` (whose `none` case is the `IndexError` branch). -/

/-- `URI.prefix_match(uri, prefix)`: `uri.startswith(prefix)` and then
the character at index `len(prefix)` either does not exist
(`IndexError` → `True`) or is a dot. -/
def prefix_match (uri pfx : List Char) : Bool :=
  if !(pfx.isPrefixOf uri) then
    false
  else
    match uri.get? pfx.length with
    | none => true
    | some next_char => next_char == '.'

/-! ## `src/aiowamp/transports/raw_socket.py` -/

/-- `byte_limit_to_size`: `1 << (limit + 9)`. -/
def byte_limit_to_size (limit : Nat) : Nat :=
  1 <<< (limit + 9)

/-- `size_to_byte_limit`: for a positive requested size, the first
exponent `l` in `range(0x10)` with `byte_limit_to_size(l) >= recv_limit`;
in every other case (including `recv_limit == 0`) the fall-through
`return 0xf`. -/
def size_to_byte_limit (recv_limit : Nat) : Nat :=
  if recv_limit > 0 then
    match (List.range 16).find? (fun l => byte_limit_to_size l ≥ recv_limit) with
    | some l => l
    | none => 0xf
  else
    0xf

/-- One length-prefixed raw-socket frame as consumed by
`RawSocketTransport.__read_once`: the op code and 24-bit length from the
4-byte header, and the message the body deserializes to (the serializer
is an external collaborator). -/
structure Frame where
  op : Nat
  length : Nat
  msg : Message
deriving DecidableEq, Repr

/-- The state of a `RawSocketTransport` visible to the read path:
the negotiated receive limit, whether `close` was called, the message
queue that `recv` reads from, and the frames written back (PONGs). -/
structure RawSocketTransport where
  recv_limit : Nat
  closed : Bool
  msg_queue : List Message
  written : List Frame
deriving DecidableEq, Repr

namespace RawSocketTransport

/-- `RawSocketTransport.__read_once`, processing one frame: if the
header length exceeds the receive limit the transport is closed and a
bare `Exception` is raised (the source line is literally
`# TODO raise` / `raise Exception`); op 0 enqueues the deserialized
message, op 1 echoes a PONG, op 2 and unknown op codes drain the body. -/
def read_once (tr : RawSocketTransport) (fr : Frame) :
    RawSocketTransport × Option Exc :=
  if fr.length > tr.recv_limit then
    ({ tr with closed := true }, some .genericException)
  else if fr.op == 0 then
    ({ tr with msg_queue := tr.msg_queue ++ [fr.msg] }, none)
  else if fr.op == 1 then
    ({ tr with written := tr.written ++ [{ fr with op := 2 }] }, none)
  else
    (tr, none)

/-- `RawSocketTransport.__read_loop` over a finite incoming stream:
every exception raised by `__read_once` is caught by the
`except Exception: log.exception(...)` handler, collected here as the
log, and the loop continues with the next frame. -/
def read_loop (tr : RawSocketTransport) (frames : List Frame) :
    RawSocketTransport × List Exc :=
  frames.foldl
    (fun acc fr =>
      let (tr2, e?) := read_once acc.1 fr
      (tr2, acc.2 ++ e?.toList))
    (tr, [])

/-- `RawSocketTransport.recv`: pop the next message from the queue
(`None` models blocking on an empty queue).  Note that no exception
from the read loop can surface here. -/
def recv (tr : RawSocketTransport) : Option (Message × RawSocketTransport) :=
  match tr.msg_queue with
  | [] => none
  | m :: rest => some (m, { tr with msg_queue := rest })

end RawSocketTransport

/-! ## `src/aiowamp/client/bwlist.py` -/

/-- A Python variable that the source statically types as `List[T]` but
that, through the `return v` at the end of `add_optional_unique_list`,
can also end up holding a bare value. -/
inductive PyVal (α : Type) where
  | lst (l : List α)
  | scalar (v : α)
deriving DecidableEq, Repr

/-- `add_optional_unique_list(l, v)` exactly as written: if `l` is
`None` return `[v]`; otherwise `bisect.insort` mutates `l` in place but
the function then executes `return v`, handing the bare value to the
caller (its own docstring promises to return the list).  A third call
with an already-scalar attribute evaluates `v not in l` on a
non-container, a `TypeError`. -/
def add_optional_unique_list [BEq α] :
    Option (PyVal α) → α → Except Exc (PyVal α)
  | none, v => .ok (.lst [v])
  | some (.lst _), v => .ok (.scalar v)
  | some (.scalar _), _ =>
      .error (.typeError "argument of type is not iterable")

/-- The six constraint attributes of `BlackWhiteList`. -/
structure BlackWhiteList where
  excluded_ids : Option (PyVal Int)
  excluded_auth_ids : Option (PyVal String)
  excluded_auth_roles : Option (PyVal String)
  eligible_ids : Option (PyVal Int)
  eligible_auth_ids : Option (PyVal String)
  eligible_auth_roles : Option (PyVal String)
deriving DecidableEq, Repr

namespace BlackWhiteList

/-- `BlackWhiteList.exclude_session_id`. -/
def exclude_session_id (bw : BlackWhiteList) (session_id : Int) :
    Except Exc BlackWhiteList :=
  (add_optional_unique_list bw.excluded_ids session_id).map
    (fun r => { bw with excluded_ids := some r })

/-- `BlackWhiteList.exclude_auth_id`. -/
def exclude_auth_id (bw : BlackWhiteList) (auth_id : String) :
    Except Exc BlackWhiteList :=
  (add_optional_unique_list bw.excluded_auth_ids auth_id).map
    (fun r => { bw with excluded_auth_ids := some r })

/-- `BlackWhiteList.exclude_auth_role`. -/
def exclude_auth_role (bw : BlackWhiteList) (auth_role : String) :
    Except Exc BlackWhiteList :=
  (add_optional_unique_list bw.excluded_auth_roles auth_role).map
    (fun r => { bw with excluded_auth_roles := some r })

/-- `BlackWhiteList.allow_session_id`. -/
def allow_session_id (bw : BlackWhiteList) (session_id : Int) :
    Except Exc BlackWhiteList :=
  (add_optional_unique_list bw.eligible_ids session_id).map
    (fun r => { bw with eligible_ids := some r })

/-- `BlackWhiteList.allow_auth_id`. -/
def allow_auth_id (bw : BlackWhiteList) (auth_id : String) :
    Except Exc BlackWhiteList :=
  (add_optional_unique_list bw.eligible_auth_ids auth_id).map
    (fun r => { bw with eligible_auth_ids := some r })

/-- `BlackWhiteList.allow_auth_role`. -/
def allow_auth_role (bw : BlackWhiteList) (auth_role : String) :
    Except Exc BlackWhiteList :=
  (add_optional_unique_list bw.eligible_auth_roles auth_role).map
    (fun r => { bw with eligible_auth_roles := some r })

end BlackWhiteList

/-! ## `src/aiowamp/client/invocation.py` and
`src/aiowamp/client/abstract.py` -/

/-- The callee-side `Invocation` state touched by the send methods:
the request id, the invocation details from the INVOCATION message, and
the private `_done` flag. -/
structure Invocation where
  request_id : Nat
  details : WDict
  done : Bool
deriving DecidableEq, Repr

namespace Invocation

/-- `InvocationABC.may_send_progress`:
`bool(self.details["receive_progress"])`, with the `KeyError` branch
returning `False`. -/
def may_send_progress (inv : Invocation) : Bool :=
  match wdGet inv.details "receive_progress" with
  | none => false
  | some v => v.truthy

/-- `Invocation.send_progress`: assert not done, assert
`may_send_progress`, set `options["progress"] = True` (creating the dict
when `None`), and send a YIELD.  Failure leaves the state untouched. -/
def send_progress (inv : Invocation) (args : List WV)
    (kwargs : Option WDict) (options : Option WDict) :
    Except Exc (Invocation × Message) :=
  if inv.done then
    .error (.runtimeError "already completed")
  else if !inv.may_send_progress then
    .error (.runtimeError "caller is unwilling to receive progress")
  else
    let opts := wdSet (options.getD []) "progress" (.b true)
    .ok (inv, .yieldMsg inv.request_id opts (listOrNone args) kwargs)

/-- `Invocation.send_result`: `__mark_done` (raising if already done),
delete any `progress` key from a truthy options dict (an empty or
missing dict is replaced by `{}`), and send a YIELD. -/
def send_result (inv : Invocation) (args : List WV)
    (kwargs : Option WDict) (options : Option WDict) :
    Except Exc (Invocation × Message) :=
  if inv.done then
    .error (.runtimeError "already completed")
  else
    let inv2 := { inv with done := true }
    let opts :=
      match options with
      | some o => if o.isEmpty then [] else wdErase o "progress"
      | none => []
    .ok (inv2, .yieldMsg inv.request_id opts (listOrNone args) kwargs)

/-- `Invocation.send_error`: `__mark_done` (raising if already done)
and send an ERROR for the invocation (message type 68). -/
def send_error (inv : Invocation) (error : String) (args : List WV)
    (kwargs : Option WDict) (details : Option WDict) :
    Except Exc (Invocation × Message) :=
  if inv.done then
    .error (.runtimeError "already completed")
  else
    let inv2 := { inv with done := true }
    .ok (inv2, .error 68 inv.request_id (details.getD []) error
      (listOrNone args) kwargs)

end Invocation

/-! ## `src/aiowamp/client/call.py` — the `Call` object -/

/-- The future-like states of an `asyncio.Future`. -/
inductive FutState where
  | pending
  | result (msg : Message)
  | exc (e : Exc)
  | cancelled
deriving DecidableEq, Repr

/-- `fut.done()`. -/
def FutState.isDone : FutState → Bool
  | .pending => false
  | _ => true

/-- The fields of the CALL message held in `Call._call_msg`; the
`Call` mutates its `options` in place before the send. -/
structure CallMsgData where
  request_id : Nat
  options : WDict
  procedure : String
  args : Option (List WV)
  kwargs : Option WDict
deriving DecidableEq, Repr

/-- View the held data as the wire message. -/
def CallMsgData.toMessage (m : CallMsgData) : Message :=
  .call m.request_id m.options m.procedure m.args m.kwargs

/-- The state of one `Call` object: the pending CALL message, the
`_call_sent` flag, the configured cancel mode, the result future, the
optional progress queue (entries are `some progressMsg`, or `none` for
the wake-up sentinel pushed on completion), and whether a progress
handler is attached. -/
structure CallState where
  callMsg : CallMsgData
  callSent : Bool
  cancelMode : String
  resultFut : FutState
  progressQueue : Option (List (Option Message))
  progressHandler : Bool
deriving DecidableEq, Repr

namespace Call

/-- `Call.done`. -/
def done (c : CallState) : Bool := c.resultFut.isDone

/-- `Call.__ensure_receive_progress`: if the `receive_progress` option
is absent, set it to `True` unless the call was already sent (then a
`RuntimeError`); if present but falsy, a `RuntimeError`. -/
def ensure_receive_progress (c : CallState) : Except Exc CallState :=
  match wdGet c.callMsg.options "receive_progress" with
  | none =>
    if c.callSent then
      .error (.runtimeError "call already sent")
    else
      .ok { c with callMsg :=
        { c.callMsg with
          options := wdSet c.callMsg.options "receive_progress" (.b true) } }
  | some v =>
    if !v.truthy then
      .error (.runtimeError "call is explicitly unwilling to receive progress")
    else
      .ok c

/-- `Call.kill`: complete the future with the exception (if still
pending) and push the wake-up sentinel onto an existing progress
queue. -/
def kill (c : CallState) (e : Exc) : CallState :=
  if done c then c
  else
    let c2 := { c with resultFut := .exc e }
    match c2.progressQueue with
    | some q => { c2 with progressQueue := some (q ++ [none]) }
    | none => c2

/-- `Call.__handle_progress`: drop the message when neither a handler
nor a queue exists; otherwise hand it to the handler (a background
task, externally) and/or push it onto the queue. -/
def handle_progress (c : CallState) (progress_msg : Message) : CallState :=
  if !c.progressHandler && c.progressQueue.isNone then c
  else
    match c.progressQueue with
    | some q => { c with progressQueue := some (q ++ [some progress_msg]) }
    | none => c

/-- `Call.handle_response`: returns the updated call and the boolean the
source returns (`True` when the call is finished and should be removed
from `ongoing_calls`).  A RESULT with a truthy `progress` detail goes to
the progress path; any other RESULT or an ERROR becomes the result;
every other message type becomes an `UnexpectedMessageError`. -/
def handle_response (c : CallState) (msg : Message) : CallState × Bool :=
  if done c then (c, true)
  else
    let finish := fun (fut : FutState) =>
      let c2 := { c with resultFut := fut }
      let c3 :=
        match c2.progressQueue with
        | some q => { c2 with progressQueue := some (q ++ [none]) }
        | none => c2
      (c3, true)
    match msg with
    | .result rid details args kwargs =>
      if truthyOpt (wdGet details "progress") then
        (handle_progress c (.result rid details args kwargs), false)
      else
        finish (.result (.result rid details args kwargs))
    | .error t rid details uri args kwargs =>
      finish (.result (.error t rid details uri args kwargs))
    | other =>
      finish (.exc .unexpectedMessageError)

/-- `Call.__send_call`: raise (without sending) when the call is
already done, otherwise set `_call_sent = True` *before* the first
suspension point and write the CALL message to the session.  The
returned list is what got written to the transport. -/
def send_call (c : CallState) : CallState × List Message × Option Exc :=
  if done c then
    (c, [], some (.runtimeError "call already completed"))
  else
    ({ c with callSent := true }, [c.callMsg.toMessage], none)

/-- `Call.__next_final`: send the CALL if it has not been sent yet,
then await the result future. -/
def next_final (c : CallState) : CallState × List Message :=
  if !c.callSent then
    let r := send_call c
    (r.1, r.2.1)
  else
    (c, [])

/-- The tail of `Call.next_progress` after the optional lazy send:
create the progress queue on first use, then take the queue head
(blocking, modelled as popping when an item is available; `None` is
returned when the queue is empty and the call is done). -/
def progress_tail (c2 : CallState) : CallState :=
  let c3 :=
    if c2.progressQueue.isNone then
      { c2 with progressQueue := some [] }
    else
      c2
  match c3.progressQueue with
  | some (_ :: rest) => { c3 with progressQueue := some rest }
  | _ => c3

/-- `Call.next_progress`: ensure progress is enabled (propagating its
`RuntimeError` before anything is sent), lazily send the CALL, then run
the queue tail. -/
def next_progress (c : CallState) : CallState × List Message :=
  match ensure_receive_progress c with
  | .error _ => (c, [])
  | .ok c1 =>
    let r := if !c1.callSent then send_call c1 else (c1, [], none)
    (progress_tail r.1, r.2.1)

/-- `Call.on_progress`: raises when the call is done or a handler is
already set; otherwise `__ensure_receive_progress` and attach the
handler.  Nothing is written to the transport. -/
def on_progress (c : CallState) : CallState × List Message :=
  if done c then (c, [])
  else if c.progressHandler then (c, [])
  else
    match ensure_receive_progress c with
    | .error _ => (c, [])
    | .ok c1 => ({ c1 with progressHandler := true }, [])

/-- `Call.cancel`: cancel the result future, return silently when the
CALL was never sent, otherwise send a CANCEL message with the
configured (or overriding) mode and await the final message. -/
def cancel (c : CallState) (mode : Option String) (options : Option WDict) :
    CallState × List Message :=
  let c1 :=
    if done c then c else { c with resultFut := .cancelled }
  if !c1.callSent then
    (c1, [])
  else
    let m := mode.getD c1.cancelMode
    let opts := wdSet (options.getD []) "mode" (.s m)
    let r := next_final c1
    (r.1, Message.cancel c1.callMsg.request_id opts :: r.2)

/-- The operations a consumer or the message handler can perform on a
`Call` after creation. -/
inductive Op where
  | nextFinal
  | nextProgress
  | onProgress
  | cancelOp (mode : Option String) (options : Option WDict)
  | handleResponse (msg : Message)
  | killOp (e : Exc)
deriving DecidableEq, Repr

/-- One operation as a transition on the call state, reporting the
messages written to the transport. -/
def step (c : CallState) : Op → CallState × List Message
  | .nextFinal => next_final c
  | .nextProgress => next_progress c
  | .onProgress => on_progress c
  | .cancelOp mode options => cancel c mode options
  | .handleResponse msg => ((handle_response c msg).1, [])
  | .killOp e => (kill c e, [])

/-- Run a sequence of operations, concatenating the writes. -/
def runOps (c : CallState) : List Op → CallState × List Message
  | [] => (c, [])
  | op :: ops =>
    let r := step c op
    let rest := runOps r.1 ops
    (rest.1, r.2 ++ rest.2)

/-- The operations on whose first use the source performs the lazy
CALL send (`Call.__next_final` via `Call.result`, and
`Call.next_progress`). -/
def Op.isAwait : Op → Bool
  | .nextFinal => true
  | .nextProgress => true
  | _ => false

end Call

/-- Count the CALL messages in a transport write trace. -/
def countCallMsgs (msgs : List Message) : Nat :=
  (msgs.filter (fun m => match m with | .call _ _ _ _ _ => true | _ => false)).length

/-! ## `src/aiowamp/client/client.py` — the client router -/

/-- The maps owned by `Client` (runner / handler callables are
external; the maps record the URI they were filed under), plus the
state of the client-owned `IDGenerator`. -/
structure ClientState where
  awaiting_reply : List (Nat × FutState)
  ongoing_calls : List (Nat × CallState)
  procedure_ids : List (String × List Nat)
  procedures : List (Nat × String)
  sub_ids : List (String × List Nat)
  sub_handlers : List (Nat × String)
  id_gen : Nat
deriving DecidableEq, Repr

namespace Client

/-- `_set_value(d, key, value)`: create the dict when `None`, then
`d[key] = value`. -/
def set_value (d : Option WDict) (key : String) (v : WV) : WDict :=
  wdSet (d.getD []) key v

/-- `Client.call` (lines 294-330): assemble the options from the
keyword shorthands, draw a request id, build the `Call` object with
`_call_sent = False` and a pending future, and file it in
`ongoing_calls`.  No coroutine is awaited and nothing is written to the
transport, hence the constant empty send list.  `call_timeout_ms`
stands for the already-rounded `round(1e3 * call_timeout)` (float
arithmetic is outside the embedding). -/
def call (st : ClientState) (procedure : String) (args : List WV)
    (kwargs : Option WDict)
    (receive_progress : Option Bool) (call_timeout_ms : Option Int)
    (cancel_mode : Option String) (disclose_me : Option Bool)
    (resource_key : Option String) (options : Option WDict) :
    ClientState × CallState × List Message :=
  let options :=
    match receive_progress with
    | some rp => some (set_value options "receive_progress" (.b rp))
    | none => options
  let options :=
    match call_timeout_ms with
    | some t => some (set_value options "timeout" (.i t))
    | none => options
  let options :=
    match disclose_me with
    | some dm => some (set_value options "disclose_me" (.b dm))
    | none => options
  let options :=
    match resource_key with
    | some rk => some (wdSet (set_value options "rkey" (.s rk))
        "runmode" (.s "partition"))
    | none => options
  let (req_id, gen2) := IDGenerator.next st.id_gen
  let c : CallState :=
    { callMsg :=
        { request_id := req_id
          options := options.getD []
          procedure := procedure
          args := listOrNone args
          kwargs := kwargs }
      callSent := false
      cancelMode := cancel_mode.getD "killnowait"
      resultFut := .pending
      progressQueue := none
      progressHandler := false }
  let st2 := { st with
    ongoing_calls := setA st.ongoing_calls req_id c
    id_gen := gen2 }
  (st2, c, [])

/-- The request-id branch of `Client.__handle_message`
(lines 122-153): a message carrying a `request_id` first completes a
single-shot waiter in `awaiting_reply`; failing that it is forwarded to
the matching ongoing call, which is deleted from `ongoing_calls` when
`handle_response` reports completion; failing both it is logged and
dropped. -/
def handle_request_response (st : ClientState) (msg : Message) : ClientState :=
  match msg.requestId? with
  | none => st
  | some request_id =>
    match lookupA st.awaiting_reply request_id with
    | some _ =>
      { st with
        awaiting_reply := setA st.awaiting_reply request_id (.result msg) }
    | none =>
      match lookupA st.ongoing_calls request_id with
      | some c =>
        let r := Call.handle_response c msg
        if r.2 then
          { st with ongoing_calls := eraseA st.ongoing_calls request_id }
        else
          { st with ongoing_calls := setA st.ongoing_calls request_id r.1 }
      | none => st

/-- `Client.__unsubscribe(sub_id)`: drop the handler entry (KeyError
suppressed), draw a request id and send `UNSUBSCRIBE` (the
`UNSUBSCRIBED` round-trip completes through `awaiting_reply`,
externally to this transition). -/
def unsubscribe_one (st : ClientState) (sub_id : Nat) :
    ClientState × Message :=
  let st2 := { st with sub_handlers := eraseA st.sub_handlers sub_id }
  let (req_id, gen2) := IDGenerator.next st2.id_gen
  ({ st2 with id_gen := gen2 }, .unsubscribe req_id sub_id)

/-- `Client.unsubscribe(topic, subscription_id)` (lines 387-403),
exactly as written: with no explicit id it does
`self.__procedure_ids.pop(topic)` — the *procedure* index — raising
`KeyError` when the topic is not there, and otherwise gathers
`__unsubscribe` over the popped ids; with an explicit id it checks
membership in `self.__procedures` (again the procedure map), removes
the id from `sub_ids[topic]` (errors suppressed) and runs
`__unsubscribe` once.  The `asyncio.gather` is modelled as a left
fold. -/
def unsubscribe (st : ClientState) (topic : String)
    (subscription_id : Option Nat) :
    Except Exc (ClientState × List Message) :=
  match subscription_id with
  | none =>
    match lookupA st.procedure_ids topic with
    | none => .error (.keyError ("no subscription for " ++ topic))
    | some sub_ids =>
      let st2 := { st with procedure_ids := eraseA st.procedure_ids topic }
      let out := sub_ids.foldl
        (fun (acc : ClientState × List Message) sid =>
          let (st3, m) := unsubscribe_one acc.1 sid
          (st3, acc.2 ++ [m]))
        (st2, [])
      .ok out
  | some sid =>
    if (lookupA st.procedures sid).isNone then
      .error (.keyError "unknown subscription id")
    else
      let newSubIds :=
        match lookupA st.sub_ids topic with
        | some ids => setA st.sub_ids topic (ids.erase sid)
        | none => st.sub_ids
      let st2 := { st with sub_ids := newSubIds }
      let (st3, m) := unsubscribe_one st2 sid
      .ok (st3, [m])

end Client

/-! ## `src/aiowamp/client/conn.py` — joining a realm -/

/-- The transport as seen by `join_realm`: the closed flag, the
messages written so far, and the scripted incoming messages that
successive `recv` calls produce. -/
structure Transport where
  closed : Bool
  sent : List Message
  incoming : List Message
deriving DecidableEq, Repr

/-- `transport.send`. -/
def Transport.sendMsg (tr : Transport) (m : Message) : Transport :=
  { tr with sent := tr.sent ++ [m] }

/-- `transport.recv`: `none` models an I/O failure / closed stream,
which the session layer surfaces as a `TransportError`. -/
def Transport.recvMsg (tr : Transport) : Option (Message × Transport) :=
  match tr.incoming with
  | [] => none
  | m :: rest => some (m, { tr with incoming := rest })

/-- `transport.close`. -/
def Transport.closeTr (tr : Transport) : Transport :=
  { tr with closed := true }

/-- An authentication plug-in (`AuthMethodABC`, an external
collaborator reached through a narrow interface): `authenticate` either
produces an AUTHENTICATE (or ABORT) message or raises, `check_welcome`
optionally raises. -/
structure AuthMethod where
  authenticate : String → WDict → Except Exc Message
  check_welcome : Nat → WDict → Option Exc

/-- An `AuthKeyring`: a mapping from auth-method name to plug-in plus
the keyring-level `auth_id` / `auth_extra`. -/
structure AuthKeyring where
  methods : List (String × AuthMethod)
  auth_id : Option String
  auth_extra : Option WDict

/-- Python truthiness of the optional keyring (`if not keyring:`):
`None` and an empty mapping are both falsy. -/
def keyringTruthy : Option AuthKeyring → Bool
  | none => false
  | some kr => !kr.methods.isEmpty

/-- `assert_welcome`: ABORT raises `AbortError`, a non-WELCOME raises
`UnexpectedMessageError`, a WELCOME passes through. -/
def assert_welcome (msg : Message) : Except Exc (Nat × WDict) :=
  match msg with
  | .abort _ reason => .error (.abortError reason)
  | .welcome sid details => .ok (sid, details)
  | _ => .error .unexpectedMessageError

/-- `_authenticate(transport, challenge, keyring)`: look the challenged
method up in the keyring (`KeyError` → `AuthError`, transport
untouched); run the plug-in (an exception becomes an ABORT with reason
`wamp.error.authorization_failed`); send the reply; when it was an
ABORT, close the transport and raise `AuthError`; otherwise expect a
WELCOME and let the plug-in check it.  The transport comes back in
every outcome so that its final state is observable. -/
def authenticate_conn (tr : Transport) (auth_method : String)
    (extra : WDict) (keyring : AuthKeyring) :
    Transport × Except Exc (Nat × WDict) :=
  match lookupA keyring.methods auth_method with
  | none =>
    (tr, .error (.authError ("challenged with auth method " ++ auth_method ++
      ", but no such method in keyring")))
  | some method =>
    let (auth, failed) :=
      match method.authenticate auth_method extra with
      | .ok a => (a, false)
      | .error _ =>
        (.abort [("error", .s "exception")] "wamp.error.authorization_failed",
          true)
    let tr2 := tr.sendMsg auth
    let isAbortMsg := match auth with | .abort _ _ => true | _ => false
    if isAbortMsg then
      (tr2.closeTr, .error (.authError "authentication aborted"))
    else
      match tr2.recvMsg with
      | none => (tr2, .error (.transportError "recv failed"))
      | some (msg, tr3) =>
        match assert_welcome msg with
        | .error e => (tr3, .error e)
        | .ok (sid, details) =>
          match method.check_welcome sid details with
          | some e => (tr3, .error e)
          | none => (tr3, .ok (sid, details))

/-- `join_realm(transport, realm, keyring, roles, details)`: build the
HELLO details (auth methods / id / extra when a truthy keyring is
given, roles when given), send HELLO, receive; a CHALLENGE without a
truthy keyring raises `AuthError` (transport untouched), with one it
runs `_authenticate`; anything else must be a WELCOME.  Returns the
final transport and either the error or the session data. -/
def join_realm (tr : Transport) (realm : String)
    (keyring : Option AuthKeyring) (roles : Option WDict)
    (details : Option WDict) :
    Transport × Except Exc (Nat × String × WDict) :=
  let details0 := details.getD []
  let details1 :=
    if keyringTruthy keyring then
      match keyring with
      | some kr =>
        let d := wdSet details0 "authmethods" (.s "methods")
        let d :=
          match kr.auth_id with
          | some aid => wdSet d "authid" (.s aid)
          | none => d
        match kr.auth_extra with
        | some _ => wdSet d "authextra" (.s "extra")
        | none => d
      | none => details0
    else details0
  let details2 :=
    match roles with
    | some _ => wdSet details1 "roles" (.s "roles")
    | none => details1
  let tr1 := tr.sendMsg (.hello realm details2)
  match tr1.recvMsg with
  | none => (tr1, .error (.transportError "recv failed"))
  | some (msg, tr2) =>
    match msg with
    | .challenge auth_method extra =>
      if !keyringTruthy keyring then
        (tr2, .error (.authError "received challenge with no keyring"))
      else
        match keyring with
        | some kr =>
          match authenticate_conn tr2 auth_method extra kr with
          | (tr3, .error e) => (tr3, .error e)
          | (tr3, .ok (sid, wdetails)) => (tr3, .ok (sid, realm, wdetails))
        | none => (tr2, .error (.authError "received challenge with no keyring"))
    | other =>
      match assert_welcome other with
      | .error e => (tr2, .error e)
      | .ok (sid, wdetails) => (tr2, .ok (sid, realm, wdetails))

/-! ## Helper predicates and concrete fixtures -/

/-- Whether an `Except` computation raised. -/
def excIsError : Except Exc α → Bool
  | .error _ => true
  | .ok _ => false

/-- A transport with a 512-byte receive limit and nothing received. -/
def smallLimitTransport : RawSocketTransport :=
  { recv_limit := 512, closed := false, msg_queue := [], written := [] }

/-- A frame one byte over that limit. -/
def oversizedFrame : Frame :=
  { op := 0, length := 513, msg := .goodbye [] "wamp.close.oversized" }

/-- An in-limit frame that follows it. -/
def okFrame : Frame :=
  { op := 0, length := 4, msg := .goodbye [] "wamp.close.normal" }

/-- A bwlist whose exclusion list already holds the session id 1. -/
def bw0 : BlackWhiteList :=
  { excluded_ids := some (.lst [1]), excluded_auth_ids := none,
    excluded_auth_roles := none, eligible_ids := none,
    eligible_auth_ids := none, eligible_auth_roles := none }

/-- A freshly constructed client (all maps empty, generator at 0). -/
def emptyClient : ClientState :=
  { awaiting_reply := [], ongoing_calls := [], procedure_ids := [],
    procedures := [], sub_ids := [], sub_handlers := [], id_gen := 0 }

/-- A client holding exactly one subscription (id 5 on topic
`"topic"`) and no registrations — the state reached after one
successful `subscribe("topic", ...)` that was acknowledged with
subscription id 5. -/
def subbedClient : ClientState :=
  { awaiting_reply := [], ongoing_calls := [], procedure_ids := [],
    procedures := [], sub_ids := [("topic", [5])],
    sub_handlers := [(5, "topic")], id_gen := 0 }

/-- A transport whose router answers the HELLO with a ticket
CHALLENGE. -/
def challengeTransport : Transport :=
  { closed := false, sent := [], incoming := [.challenge "ticket" []] }

/-- An auth plug-in stub (external collaborator; never reached in the
scenarios below). -/
def dummyAuthMethod : AuthMethod :=
  { authenticate := fun _ _ => .error .genericException
    check_welcome := fun _ _ => none }

/-- A keyring holding only the `wamp-cra` method. -/
def craKeyring : AuthKeyring :=
  { methods := [("wamp-cra", dummyAuthMethod)], auth_id := none,
    auth_extra := none }

/-- A concrete pending call fixture: request id 1, no options, not yet
sent. -/
def pendingCall : CallState :=
  { callMsg :=
      { request_id := 1, options := [], procedure := "io.test.proc",
        args := none, kwargs := none }
    callSent := false
    cancelMode := "killnowait"
    resultFut := .pending
    progressQueue := none
    progressHandler := false }

/-- A client with exactly the one pending call filed under id 1. -/
def oneCallClient : ClientState :=
  { awaiting_reply := [], ongoing_calls := [(1, pendingCall)],
    procedure_ids := [], procedures := [], sub_ids := [],
    sub_handlers := [], id_gen := 1 }

/-- A callee-side invocation whose caller requested progressive
results. -/
def progInvocation : Invocation :=
  { request_id := 7, details := [("receive_progress", .b true)],
    done := false }

end Aiowamp

/-! # Lemmas and claim theorems -/

namespace Aiowamp

/-- Looking a key up after erasing it finds nothing. -/
theorem lookupA_eraseA [BEq κ] (l : List (κ × α)) (k : κ) :
    lookupA (eraseA l k) k = none := by
  induction l with
  | nil => rfl
  | cons p t ih =>
    cases hbeq : (p.1 == k) with
    | true =>
      have hbne : (p.1 != k) = false := by simp [bne, hbeq]
      simpa [eraseA, List.filter_cons, hbne] using ih
    | false =>
      have hbne : (p.1 != k) = true := by simp [bne, hbeq]
      simpa [eraseA, lookupA, List.filter_cons, List.find?, hbne, hbeq]
        using ih

/-- `wdGet` after `wdErase` of the same key. -/
theorem wdGet_wdErase (d : WDict) (k : String) :
    wdGet (wdErase d k) k = none :=
  lookupA_eraseA d k

/-- `countCallMsgs` distributes over concatenation. -/
theorem countCallMsgs_append (a b : List Message) :
    countCallMsgs (a ++ b) = countCallMsgs a + countCallMsgs b := by
  simp [countCallMsgs, List.filter_append]

/-! ## C9 — the ID generator -/

/-- `MAX_ID` as a numeral. -/
theorem MAX_ID_eq : MAX_ID = 9007199254740992 := by
  rw [MAX_ID, Nat.shiftLeft_eq, one_mul]

/-- Ids stay within the window, step by step. -/
theorem IDGenerator_next_cases (s : Nat) (h : s ≤ MAX_ID) :
    0 < (IDGenerator.next s).1 ∧ (IDGenerator.next s).1 ≤ MAX_ID ∧
      (IDGenerator.next s).2 = (IDGenerator.next s).1 ∧
      (s < MAX_ID → (IDGenerator.next s).1 = s + 1) ∧
      (s = MAX_ID → (IDGenerator.next s).1 = 1) := by
  rw [MAX_ID_eq] at h
  simp only [IDGenerator.next, MAX_ID_eq]
  refine ⟨?_, ?_, trivial, ?_, ?_⟩ <;> split_ifs <;> omega

/-- Every id emitted by a run that starts inside the window is in
`(0, MAX_ID]`. -/
theorem IDGenerator_run_mem (n : Nat) :
    ∀ s, s ≤ MAX_ID → ∀ v ∈ IDGenerator.run s n, 0 < v ∧ v ≤ MAX_ID := by
  induction n with
  | zero => intro s hs v hv; simp [IDGenerator.run] at hv
  | succ n ih =>
    intro s hs v hv
    simp only [IDGenerator.run] at hv
    rcases List.mem_cons.mp hv with h | h
    · subst h
      have := IDGenerator_next_cases s hs
      exact ⟨this.1, this.2.1⟩
    · have hnext := IDGenerator_next_cases s hs
      have h2 : (IDGenerator.next s).2 ≤ MAX_ID := by
        rw [hnext.2.2.1]; exact hnext.2.1
      exact ih (IDGenerator.next s).2 h2 v h

/-- C9: every id generated by `IDGenerator.next` lies in
`(0, 2^53]`; below the cap the ids are sequential (`previous + 1`), and
once the incremented counter exceeds `2^53` it wraps back to 1; in
particular 0 is never returned.  The run clause applies this to the
whole id sequence from the initial counter 0. -/
theorem C9_id_generator :
    (∀ s : Nat, s ≤ MAX_ID →
      0 < (IDGenerator.next s).1 ∧ (IDGenerator.next s).1 ≤ MAX_ID ∧
        (s < MAX_ID → (IDGenerator.next s).1 = s + 1) ∧
        (s = MAX_ID → (IDGenerator.next s).1 = 1))
    ∧ (∀ n : Nat, ∀ v ∈ IDGenerator.run 0 n, 0 < v ∧ v ≤ MAX_ID) := by
  constructor
  · intro s hs
    have h := IDGenerator_next_cases s hs
    exact ⟨h.1, h.2.1, h.2.2.2.1, h.2.2.2.2⟩
  · intro n v hv
    exact IDGenerator_run_mem n 0 (Nat.zero_le _) v hv

/-! ## C5 — raw-socket receive-limit negotiation -/

/-- `byte_limit_to_size` as a power of two. -/
theorem byte_limit_to_size_eq (l : Nat) : byte_limit_to_size l = 2 ^ (l + 9) := by
  rw [byte_limit_to_size, Nat.shiftLeft_eq, one_mul]

/-- `find?` on `range'` returns the least satisfying number at or
after the start. -/
theorem find?_range'_min (p : Nat → Bool) :
    ∀ (n s a : Nat), (List.range' s n).find? p = some a →
      p a = true ∧ s ≤ a ∧ ∀ m, s ≤ m → m < a → p m = false := by
  intro n
  induction n with
  | zero => intro s a h; exact absurd h (by simp)
  | succ n ih =>
    intro s a h
    have hr : List.range' s (n + 1) = s :: List.range' (s + 1) n := rfl
    rw [hr] at h
    simp only [List.find?] at h
    cases hp : p s with
    | true =>
      rw [hp] at h
      cases h
      exact ⟨hp, le_refl _, fun m h1 h2 => absurd h1 (by omega)⟩
    | false =>
      rw [hp] at h
      obtain ⟨hpa, hsa, hbefore⟩ := ih (s + 1) a h
      refine ⟨hpa, by omega, fun m h1 h2 => ?_⟩
      rcases Nat.eq_or_lt_of_le h1 with rfl | hlt
      · exact hp
      · exact hbefore m hlt h2

/-- `find?` returning nothing means no element satisfies. -/
theorem find?_none_all (p : α → Bool) :
    ∀ (l : List α), l.find? p = none → ∀ x ∈ l, p x = false := by
  intro l
  induction l with
  | nil => intro h x hx; cases hx
  | cons a t ih =>
    intro h x hx
    simp only [List.find?] at h
    cases hp : p a with
    | true => rw [hp] at h; cases h
    | false =>
      rw [hp] at h
      rcases List.mem_cons.mp hx with rfl | hx2
      · exact hp
      · exact ih h x hx2

/-- C5 counterexample: the claim maps a requested size of 0 to
exponent 0, but `size_to_byte_limit 0` falls through to `0xf` (the
source uses 0 as a sentinel for the maximum). -/
theorem C5_counterexample : size_to_byte_limit 0 ≠ 0 := by decide

/-- C5 amended: `size_to_byte_limit` maps 0 (the sentinel for "use the
maximum") and every size above `2^24` to the top exponent 15, and maps
every size `s` with `0 < s ≤ 2^24` to the minimum exponent
`exp ∈ [0, 15]` with `2^(9+exp) ≥ s`. -/
theorem C5_amended_size_to_byte_limit (s : Nat) :
    (s = 0 → size_to_byte_limit s = 15)
    ∧ (2 ^ 24 < s → size_to_byte_limit s = 15)
    ∧ (0 < s → s ≤ 2 ^ 24 →
        size_to_byte_limit s ≤ 15
        ∧ s ≤ byte_limit_to_size (size_to_byte_limit s)
        ∧ ∀ e, e < size_to_byte_limit s → byte_limit_to_size e < s) := by
  refine ⟨?_, ?_, ?_⟩
  · rintro rfl; rfl
  · intro hgt
    have h0 : 0 < s := by positivity
    rw [size_to_byte_limit, if_pos h0]
    have hnone :
        (List.range 16).find? (fun l => byte_limit_to_size l ≥ s) = none := by
      cases hf : (List.range 16).find? (fun l => byte_limit_to_size l ≥ s) with
      | none => rfl
      | some a =>
        have hp := List.find?_some hf
        have ha : a < 16 := List.mem_range.mp (List.mem_of_find?_eq_some hf)
        rw [byte_limit_to_size_eq] at hp
        have hple : s ≤ 2 ^ (a + 9) := of_decide_eq_true hp
        have hle : (2 : Nat) ^ (a + 9) ≤ 2 ^ 24 :=
          Nat.pow_le_pow_right (by norm_num) (by omega)
        exact absurd hgt (Nat.not_lt.mpr (le_trans hple hle))
    rw [hnone]
  · intro hpos hle
    rw [size_to_byte_limit, if_pos hpos]
    cases hf : (List.range 16).find? (fun l => byte_limit_to_size l ≥ s) with
    | none =>
      exfalso
      have hall := find?_none_all _ _ hf 15 (List.mem_range.mpr (by norm_num))
      rw [byte_limit_to_size_eq] at hall
      have : ¬ (s ≤ 2 ^ (15 + 9)) := of_decide_eq_false hall
      exact this (by norm_num at hle ⊢; omega)
    | some a =>
      dsimp only
      have ha16 : a < 16 := List.mem_range.mp (List.mem_of_find?_eq_some hf)
      rw [List.range_eq_range'] at hf
      obtain ⟨hpa, -, hbefore⟩ := find?_range'_min _ 16 0 a hf
      refine ⟨by omega, of_decide_eq_true hpa, fun e he => ?_⟩
      have := hbefore e (Nat.zero_le _) he
      have hne : ¬ (byte_limit_to_size e ≥ s) := of_decide_eq_false this
      omega

/-- Witness for C5 at sizes 0 and 1000 (the minimal exponent for 1000
is 1, since 2^9 = 512 < 1000 ≤ 1024 = 2^10). -/
theorem C5_amended_witness :
    size_to_byte_limit 0 = 15
    ∧ size_to_byte_limit 1000 ≤ 15
    ∧ 1000 ≤ byte_limit_to_size (size_to_byte_limit 1000) := by
  refine ⟨(C5_amended_size_to_byte_limit 0).1 rfl, ?_, ?_⟩
  · exact ((C5_amended_size_to_byte_limit 1000).2.2 (by norm_num)
      (by norm_num)).1
  · exact ((C5_amended_size_to_byte_limit 1000).2.2 (by norm_num)
      (by norm_num)).2.1

/-! ## C8 — URI prefix matching -/

/-- C8: for all strings, `prefix_match uri pfx` returns true exactly
when the uri equals the pattern or starts with the pattern followed by
a dot. -/
theorem C8_prefix_match (uri pfx : List Char) :
    prefix_match uri pfx = true ↔
      uri = pfx ∨ ∃ rest, uri = pfx ++ '.' :: rest := by
  induction pfx generalizing uri with
  | nil =>
    cases uri with
    | nil =>
      constructor
      · intro _; exact Or.inl rfl
      · intro _; rfl
    | cons u us =>
      have hl : prefix_match (u :: us) [] = (u == '.') := rfl
      rw [hl]
      constructor
      · intro h
        exact Or.inr ⟨us, by rw [List.nil_append, eq_of_beq h]⟩
      · rintro (h | ⟨rest, hr⟩)
        · cases h
        · rw [List.nil_append] at hr
          cases hr
          exact beq_self_eq_true '.'
  | cons p ps ih =>
    cases uri with
    | nil =>
      have hl : prefix_match [] (p :: ps) = false := rfl
      rw [hl]
      simp
    | cons u us =>
      by_cases hpu : p = u
      · subst hpu
        have hl : prefix_match (p :: us) (p :: ps) = prefix_match us ps := by
          simp [prefix_match, List.isPrefixOf, List.get?_cons_succ]
        rw [hl, ih us]
        simp [List.cons_append]
      · have hl : prefix_match (u :: us) (p :: ps) = false := by
          have : (p == u) = false := beq_eq_false_iff_ne.mpr hpu
          simp [prefix_match, List.isPrefixOf, this]
        rw [hl]
        constructor
        · intro h; cases h
        · rintro (h | ⟨rest, hr⟩)
          · cases h; exact (hpu rfl).elim
          · rw [List.cons_append] at hr
            cases hr
            exact (hpu rfl).elim

/-! ## C7 — invocation send discipline -/

/-- C7: `send_progress` raises exactly when the invocation is done or
the caller did not set a truthy `receive_progress` detail;
`send_result` and `send_error` raise exactly when the invocation is
already done, and on success mark it done; the YIELD sent by
`send_result` carries no `progress` key in its options. -/
theorem C7_invocation_send_discipline (inv : Invocation) (args : List WV)
    (kwargs : Option WDict) (options : Option WDict)
    (uri : String) (details : Option WDict) :
    (excIsError (Invocation.send_progress inv args kwargs options) = true ↔
      (inv.done = true ∨ inv.may_send_progress = false))
    ∧ (excIsError (Invocation.send_result inv args kwargs options) = true ↔
        inv.done = true)
    ∧ (excIsError (Invocation.send_error inv uri args kwargs details) = true ↔
        inv.done = true)
    ∧ (inv.done = false →
        Invocation.send_result inv args kwargs options =
          .ok ({ inv with done := true },
            .yieldMsg inv.request_id
              (match options with
               | some o => if o.isEmpty then [] else wdErase o "progress"
               | none => [])
              (listOrNone args) kwargs)
        ∧ wdGet
            (match options with
             | some o => if o.isEmpty then [] else wdErase o "progress"
             | none => []) "progress" = none)
    ∧ (inv.done = false →
        Invocation.send_error inv uri args kwargs details =
          .ok ({ inv with done := true },
            .error 68 inv.request_id (details.getD []) uri
              (listOrNone args) kwargs)) := by
  refine ⟨?_, ?_, ?_, ?_, ?_⟩
  · by_cases hdone : inv.done <;> by_cases hmsp : inv.may_send_progress <;>
      simp [Invocation.send_progress, excIsError, hdone, hmsp]
  · by_cases hdone : inv.done <;>
      simp [Invocation.send_result, excIsError, hdone]
  · by_cases hdone : inv.done <;>
      simp [Invocation.send_error, excIsError, hdone]
  · intro h
    obtain ⟨rid0, det0, d0⟩ := inv
    simp only at h
    subst h
    refine ⟨rfl, ?_⟩
    match options with
    | none => rfl
    | some o =>
      by_cases he : o.isEmpty
      · simp [he, wdGet, lookupA]
      · simp only [he, if_neg, ite_false, Bool.false_eq_true]
        exact wdGet_wdErase o "progress"
  · intro h
    obtain ⟨rid0, det0, d0⟩ := inv
    simp only at h
    subst h
    rfl

/-- Witness for C7 on a live invocation whose caller requested
progress: `send_progress` does not raise, and `send_result` strips the
`progress` key while keeping the other option. -/
theorem C7_invocation_send_discipline_witness :
    excIsError (Invocation.send_progress progInvocation [] none none) ≠ true
    ∧ Invocation.send_result progInvocation [] none
        (some [("progress", .b true), ("other", .i 1)]) =
      .ok ({ progInvocation with done := true },
        .yieldMsg 7 [("other", .i 1)] none none)
    ∧ wdGet [("other", .i 1)] "progress" = none := by
  have hA := C7_invocation_send_discipline progInvocation [] none none
    "wamp.error.runtime_error" none
  have hB := C7_invocation_send_discipline progInvocation [] none
    (some [("progress", .b true), ("other", .i 1)])
    "wamp.error.runtime_error" none
  refine ⟨?_, ?_, ?_⟩
  · intro hx
    rcases hA.1.mp hx with h2 | h2
    · exact absurd h2 (by decide)
    · exact absurd h2 (by decide)
  · exact (hB.2.2.2.1 rfl).1
  · exact (hB.2.2.2.1 rfl).2

/-! ## C4 — oversized raw-socket frames -/

/-- C4: the code closes the transport on an oversized frame, but it
raises a bare `Exception` (not a `TransportError`), and
`__read_loop` swallows it and keeps reading: a following in-limit frame
still reaches `recv`.  This contradicts the claim (and the intent of
the `# TODO raise` comments in the source). -/
theorem C4_code_bug :
    RawSocketTransport.read_once smallLimitTransport oversizedFrame =
      ({ smallLimitTransport with closed := true }, some Exc.genericException)
    ∧ (∀ s, Exc.genericException ≠ Exc.transportError s)
    ∧ RawSocketTransport.read_loop smallLimitTransport
        [oversizedFrame, okFrame] =
      ({ smallLimitTransport with closed := true, msg_queue := [okFrame.msg] },
        [Exc.genericException])
    ∧ RawSocketTransport.recv
        (RawSocketTransport.read_loop smallLimitTransport
          [oversizedFrame, okFrame]).1 =
      some (okFrame.msg, { smallLimitTransport with closed := true }) := by
  refine ⟨rfl, ?_, rfl, rfl⟩
  intro s h
  exact Exc.noConfusion h

/-! ## C3 — unsubscribe uses the procedure maps -/

/-- C3: on a client whose only subscription is id 5 on `"topic"`,
`unsubscribe("topic")` raises `KeyError` (it pops
`self.__procedure_ids`, which is empty, instead of `self.__sub_ids`),
and `unsubscribe("topic", 5)` also raises `KeyError` (it checks
`self.__procedures` instead of `self.__sub_handlers`); in both cases
nothing is removed and no UNSUBSCRIBE is sent, contradicting the
claim. -/
theorem C3_code_bug :
    Client.unsubscribe subbedClient "topic" none =
      .error (.keyError "no subscription for topic")
    ∧ Client.unsubscribe subbedClient "topic" (some 5) =
      .error (.keyError "unknown subscription id") :=
  ⟨rfl, rfl⟩

/-! ## C1 — a final RESULT/ERROR completes and removes the call -/

/-- C1: when the request-id dispatch of `Client.__handle_message`
processes a RESULT without the progress flag, or an ERROR, addressed to
an ongoing (still pending) call and not claimed by a single-shot
waiter, then afterwards the call is gone from `ongoing_calls`,
`handle_response` reported completion, and the call's result future is
completed with that very message. -/
theorem C1_final_response_completes_call
    (st : ClientState) (rid : Nat) (c : CallState) (msg : Message)
    (hwait : lookupA st.awaiting_reply rid = none)
    (hcall : lookupA st.ongoing_calls rid = some c)
    (hpend : c.resultFut = .pending)
    (hfinal :
      (∃ d a k, msg = .result rid d a k
        ∧ truthyOpt (wdGet d "progress") = false)
      ∨ (∃ t d u a k, msg = .error t rid d u a k)) :
    lookupA (Client.handle_request_response st msg).ongoing_calls rid = none
    ∧ (Call.handle_response c msg).2 = true
    ∧ (Call.handle_response c msg).1.resultFut = .result msg := by
  have hdone : Call.done c = false := by
    rw [Call.done, hpend]; rfl
  rcases hfinal with ⟨d, a, k, hm, hprog⟩ | ⟨t, d, u, a, k, hm⟩ <;> subst hm
  · have h23 : (Call.handle_response c (.result rid d a k)).2 = true ∧
        (Call.handle_response c (.result rid d a k)).1.resultFut =
          .result (.result rid d a k) := by
      cases hq : c.progressQueue <;>
        simp [Call.handle_response, hdone, hprog, hq]
    refine ⟨?_, h23.1, h23.2⟩
    simp only [Client.handle_request_response, Message.requestId?, hwait,
      hcall, h23.1, if_true]
    exact lookupA_eraseA st.ongoing_calls rid
  · have h23 : (Call.handle_response c (.error t rid d u a k)).2 = true ∧
        (Call.handle_response c (.error t rid d u a k)).1.resultFut =
          .result (.error t rid d u a k) := by
      cases hq : c.progressQueue <;>
        simp [Call.handle_response, hdone, hq]
    refine ⟨?_, h23.1, h23.2⟩
    simp only [Client.handle_request_response, Message.requestId?, hwait,
      hcall, h23.1, if_true]
    exact lookupA_eraseA st.ongoing_calls rid

/-- Witness for C1: the one-call client receives the final result for
request 1. -/
theorem C1_final_response_completes_call_witness :
    lookupA (Client.handle_request_response oneCallClient
      (.result 1 [] none none)).ongoing_calls 1 = none
    ∧ (Call.handle_response pendingCall
        (.result 1 [] none none)).1.resultFut =
      .result (.result 1 [] none none) := by
  have h := C1_final_response_completes_call oneCallClient 1 pendingCall
    (.result 1 [] none none) rfl rfl rfl
    (Or.inl ⟨[], none, none, rfl, rfl⟩)
  exact ⟨h.1, h.2.2⟩

/-! ## C2 — lazy CALL send -/

/-- A successful `__ensure_receive_progress` only touches the options:
the sent flag and the result future are unchanged. -/
theorem ensure_rp_ok (c c' : CallState)
    (h : Call.ensure_receive_progress c = .ok c') :
    c'.callSent = c.callSent ∧ c'.resultFut = c.resultFut := by
  rw [Call.ensure_receive_progress] at h
  cases hg : wdGet c.callMsg.options "receive_progress" with
  | none =>
    rw [hg] at h
    dsimp only at h
    cases hs : c.callSent <;> rw [hs] at h
    · rw [if_neg Bool.false_ne_true] at h
      cases h
      exact ⟨rfl, rfl⟩
    · rw [if_pos rfl] at h
      exact Except.noConfusion h
  | some v =>
    rw [hg] at h
    dsimp only at h
    cases ht : v.truthy <;> rw [ht] at h
    · rw [Bool.not_false, if_pos rfl] at h
      exact Except.noConfusion h
    · rw [Bool.not_true, if_neg Bool.false_ne_true] at h
      cases h
      exact ⟨rfl, rfl⟩

/-- The queue tail of `next_progress` never touches the sent flag. -/
theorem progress_tail_callSent (c2 : CallState) :
    (Call.progress_tail c2).callSent = c2.callSent := by
  unfold Call.progress_tail
  cases hq : c2.progressQueue with
  | none => simp [hq]
  | some q => cases q <;> simp [hq]

/-- `__handle_progress` never touches the sent flag. -/
theorem handle_progress_callSent (c : CallState) (m : Message) :
    (Call.handle_progress c m).callSent = c.callSent := by
  unfold Call.handle_progress
  split_ifs
  · rfl
  · cases hq : c.progressQueue <;> simp [hq]

/-- `handle_response` never touches the sent flag. -/
theorem handle_response_callSent (c : CallState) (msg : Message) :
    (Call.handle_response c msg).1.callSent = c.callSent := by
  unfold Call.handle_response
  cases hd : Call.done c
  · rw [if_neg Bool.false_ne_true]
    split
    · split
      · exact handle_progress_callSent c _
      · cases hq : c.progressQueue <;> simp [hq]
    · cases hq : c.progressQueue <;> simp [hq]
    · cases hq : c.progressQueue <;> simp [hq]
  · rw [if_pos rfl]

/-- `kill` never touches the sent flag. -/
theorem kill_callSent (c : CallState) (e : Exc) :
    (Call.kill c e).callSent = c.callSent := by
  unfold Call.kill
  cases hd : Call.done c
  · rw [if_neg Bool.false_ne_true]
    cases hq : c.progressQueue <;> simp [hq]
  · rw [if_pos rfl]

/-- One operation on a call: a sent call never emits another CALL
message; an unsent call emits at most one CALL, and only by becoming
sent; non-awaiting operations emit no CALL at all. -/
theorem step_char (c : CallState) (op : Call.Op) :
    (c.callSent = true →
      countCallMsgs (Call.step c op).2 = 0 ∧ (Call.step c op).1.callSent = true)
    ∧ (c.callSent = false →
        (countCallMsgs (Call.step c op).2 = 0
          ∧ (Call.step c op).1.callSent = false)
        ∨ (countCallMsgs (Call.step c op).2 = 1
          ∧ (Call.step c op).1.callSent = true))
    ∧ (Call.Op.isAwait op = false → countCallMsgs (Call.step c op).2 = 0) := by
  cases op with
  | nextFinal =>
    refine ⟨fun h => ?_, fun h => ?_, fun h => ?_⟩
    · simp [Call.step, Call.next_final, h, countCallMsgs]
    · cases hd : Call.done c
      · exact Or.inr (by
          simp [Call.step, Call.next_final, Call.send_call, h, hd,
            countCallMsgs, CallMsgData.toMessage])
      · exact Or.inl (by
          simp [Call.step, Call.next_final, Call.send_call, h, hd,
            countCallMsgs])
    · simp [Call.Op.isAwait] at h
  | nextProgress =>
    cases he : Call.ensure_receive_progress c with
    | error e =>
      refine ⟨fun h => ?_, fun h => Or.inl ?_, fun h => ?_⟩ <;>
        simp [Call.step, Call.next_progress, he, countCallMsgs, h]
    | ok c1 =>
      have hcs1 := (ensure_rp_ok c c1 he).1
      refine ⟨fun h => ?_, fun h => ?_, fun h => ?_⟩
      · have hc1 : c1.callSent = true := by rw [hcs1, h]
        simp [Call.step, Call.next_progress, he, hc1, countCallMsgs,
          progress_tail_callSent]
      · have hc1 : c1.callSent = false := by rw [hcs1, h]
        cases hd : Call.done c1
        · exact Or.inr (by
            simp [Call.step, Call.next_progress, he, hc1, hd,
              Call.send_call, countCallMsgs, CallMsgData.toMessage,
              progress_tail_callSent])
        · exact Or.inl (by
            simp [Call.step, Call.next_progress, he, hc1, hd,
              Call.send_call, countCallMsgs, progress_tail_callSent])
      · simp [Call.Op.isAwait] at h
  | onProgress =>
    have hpres : (Call.on_progress c).1.callSent = c.callSent ∧
        (Call.on_progress c).2 = [] := by
      unfold Call.on_progress
      cases hd : Call.done c
      · rw [if_neg Bool.false_ne_true]
        cases hp : c.progressHandler
        · rw [if_neg Bool.false_ne_true]
          cases he : Call.ensure_receive_progress c with
          | error e => exact ⟨rfl, rfl⟩
          | ok c1 => exact ⟨(ensure_rp_ok c c1 he).1, rfl⟩
        · rw [if_pos rfl]
          exact ⟨rfl, rfl⟩
      · rw [if_pos rfl]
        exact ⟨rfl, rfl⟩
    refine ⟨fun h => ?_, fun h => Or.inl ?_, fun h => ?_⟩ <;>
      simp [Call.step, hpres.1, hpres.2, countCallMsgs, h]
  | cancelOp mode options =>
    have hint : (Call.cancel c mode options).1.callSent = c.callSent ∧
        countCallMsgs (Call.cancel c mode options).2 = 0 := by
      unfold Call.cancel
      cases hd : Call.done c
      · rw [if_neg Bool.false_ne_true]
        cases hs : c.callSent <;>
          simp [Call.next_final, hs, countCallMsgs]
      · rw [if_pos rfl]
        cases hs : c.callSent <;>
          simp [Call.next_final, hs, countCallMsgs]
    refine ⟨fun h => ?_, fun h => Or.inl ?_, fun h => ?_⟩ <;>
      simp [Call.step, hint.1, hint.2, h]
  | handleResponse msg =>
    refine ⟨fun h => ?_, fun h => Or.inl ?_, fun h => ?_⟩ <;>
      simp [Call.step, handle_response_callSent, countCallMsgs, h]
  | killOp e =>
    refine ⟨fun h => ?_, fun h => Or.inl ?_, fun h => ?_⟩ <;>
      simp [Call.step, kill_callSent, countCallMsgs, h]

/-- Running any operation sequence: a sent call emits no CALL, an
unsent call emits at most one, and without awaiting operations none is
emitted. -/
theorem runOps_count (ops : List Call.Op) : ∀ c : CallState,
    (c.callSent = true → countCallMsgs (Call.runOps c ops).2 = 0)
    ∧ (c.callSent = false → countCallMsgs (Call.runOps c ops).2 ≤ 1)
    ∧ ((∀ op ∈ ops, Call.Op.isAwait op = false) →
        countCallMsgs (Call.runOps c ops).2 = 0) := by
  induction ops with
  | nil =>
    intro c
    refine ⟨fun _ => ?_, fun _ => ?_, fun _ => ?_⟩ <;>
      simp [Call.runOps, countCallMsgs]
  | cons op ops ih =>
    intro c
    have hstep := step_char c op
    have hih := ih (Call.step c op).1
    have hrw : (Call.runOps c (op :: ops)).2 =
        (Call.step c op).2 ++ (Call.runOps (Call.step c op).1 ops).2 := rfl
    refine ⟨fun h => ?_, fun h => ?_, fun h => ?_⟩
    · obtain ⟨h0, h1⟩ := hstep.1 h
      rw [hrw, countCallMsgs_append, h0, hih.1 h1]
    · rcases hstep.2.1 h with ⟨h0, h1⟩ | ⟨h0, h1⟩
      · rw [hrw, countCallMsgs_append, h0]
        have := hih.2.1 h1
        omega
      · rw [hrw, countCallMsgs_append, h0, hih.1 h1]
    · have h0 := hstep.2.2 (h op (List.mem_cons_self op ops))
      have h1 := hih.2.2 (fun o ho => h o (List.mem_cons_of_mem op ho))
      rw [hrw, countCallMsgs_append, h0, h1]

/-- C2: `Client.call` writes nothing to the transport and returns an
unsent, pending `Call`; across any sequence of subsequent operations at
most one CALL message is ever written; none is written while no
result/progress await happened; and the first `__next_final` (the first
`await call.result()`) writes exactly the pending CALL message and
marks the call sent. -/
theorem C2_lazy_call_send
    (st : ClientState) (procedure : String) (args : List WV)
    (kwargs : Option WDict) (receive_progress : Option Bool)
    (call_timeout_ms : Option Int) (cancel_mode : Option String)
    (disclose_me : Option Bool) (resource_key : Option String)
    (options : Option WDict) (ops : List Call.Op)
    (st2 : ClientState) (c0 : CallState) (sends : List Message)
    (hc : Client.call st procedure args kwargs receive_progress
      call_timeout_ms cancel_mode disclose_me resource_key options =
      (st2, c0, sends)) :
    sends = []
    ∧ c0.callSent = false
    ∧ c0.resultFut = .pending
    ∧ countCallMsgs (Call.runOps c0 ops).2 ≤ 1
    ∧ ((∀ op ∈ ops, Call.Op.isAwait op = false) →
        countCallMsgs (Call.runOps c0 ops).2 = 0)
    ∧ Call.next_final c0 =
        ({ c0 with callSent := true }, [c0.callMsg.toMessage]) := by
  have hsends : sends = [] :=
    (congrArg (fun t => t.2.2) hc).symm
  have hcs : c0.callSent = false :=
    (congrArg (fun t => t.2.1.callSent) hc).symm
  have hpend : c0.resultFut = .pending :=
    (congrArg (fun t => t.2.1.resultFut) hc).symm
  have hdone : Call.done c0 = false := by
    rw [Call.done, hpend]; rfl
  have hrun := runOps_count ops c0
  refine ⟨hsends, hcs, hpend, hrun.2.1 hcs, hrun.2.2, ?_⟩
  simp [Call.next_final, Call.send_call, hcs, hdone]

/-- Witness for C2: a fresh call awaited twice sends at most one CALL,
and a killed call that is never awaited sends none. -/
theorem C2_lazy_call_send_witness :
    countCallMsgs (Call.runOps (Client.call emptyClient "io.test.proc" []
      none none none none none none none).2.1
      [Call.Op.nextFinal, Call.Op.nextFinal]).2 ≤ 1
    ∧ countCallMsgs (Call.runOps (Client.call emptyClient "io.test.proc" []
        none none none none none none none).2.1
        [Call.Op.killOp Exc.clientClosed]).2 = 0 := by
  have h1 := C2_lazy_call_send emptyClient "io.test.proc" [] none none none
    none none none none [Call.Op.nextFinal, Call.Op.nextFinal] _ _ _ rfl
  have h2 := C2_lazy_call_send emptyClient "io.test.proc" [] none none none
    none none none none [Call.Op.killOp Exc.clientClosed] _ _ _ rfl
  refine ⟨h1.2.2.2.1, h2.2.2.2.2.1 ?_⟩
  intro op hop
  simp only [List.mem_singleton] at hop
  subst hop
  rfl

/-! ## C6 — CHALLENGE with no matching auth method -/

/-- C6 counterexample: a router that answers HELLO with a `ticket`
CHALLENGE while the keyring only holds `wamp-cra` makes `join_realm`
fail with `AuthError` — but the transport is NOT closed (the source
only closes it on the abort path of `_authenticate`), so the claim's
"and the transport is closed" is false at this input. -/
theorem C6_counterexample :
    (join_realm challengeTransport "realm" (some craKeyring) none none).2 =
      .error (.authError
        "challenged with auth method ticket, but no such method in keyring")
    ∧ (join_realm challengeTransport "realm"
        (some craKeyring) none none).1.closed = false :=
  ⟨rfl, rfl⟩

/-- C6 amended: when the router sends a CHALLENGE whose auth method has
no match in the keyring (or there is no keyring, or the keyring is
empty), the join fails with `AuthError` and the transport is left as it
was — in particular it is not closed by this path. -/
theorem C6_amended_challenge_no_method
    (tr : Transport) (realm : String) (kr : Option AuthKeyring)
    (roles details : Option WDict) (method : String) (extra : WDict)
    (rest : List Message)
    (hin : tr.incoming = .challenge method extra :: rest)
    (hmiss : ∀ k, kr = some k → lookupA k.methods method = none) :
    (∃ s, (join_realm tr realm kr roles details).2 = .error (.authError s))
    ∧ (join_realm tr realm kr roles details).1.closed = tr.closed := by
  cases kr with
  | none =>
    refine ⟨⟨"received challenge with no keyring", ?_⟩, ?_⟩ <;>
      simp [join_realm, Transport.sendMsg, Transport.recvMsg, hin,
        keyringTruthy]
  | some k =>
    cases hke : k.methods.isEmpty
    · have hl := hmiss k rfl
      refine ⟨⟨"challenged with auth method " ++ method ++
        ", but no such method in keyring", ?_⟩, ?_⟩ <;>
        simp [join_realm, Transport.sendMsg, Transport.recvMsg, hin,
          keyringTruthy, hke, authenticate_conn, hl]
    · refine ⟨⟨"received challenge with no keyring", ?_⟩, ?_⟩ <;>
        simp [join_realm, Transport.sendMsg, Transport.recvMsg, hin,
          keyringTruthy, hke]

/-- Witness for the amended C6 at the concrete fixture. -/
theorem C6_amended_witness :
    (∃ s, (join_realm challengeTransport "realm" (some craKeyring) none
      none).2 = .error (.authError s))
    ∧ (join_realm challengeTransport "realm" (some craKeyring) none
        none).1.closed = challengeTransport.closed :=
  C6_amended_challenge_no_method challengeTransport "realm"
    (some craKeyring) none none "ticket" [] [] rfl
    (fun k hk => by cases hk; rfl)

/-! ## C10 — bwlist mutators -/

/-- C10: with `excluded_ids` already the list `[1]`,
`exclude_session_id(2)` rebinds the attribute to the bare value 2
(`add_optional_unique_list` ends in `return v`), not to a list
containing 1 and 2 — contradicting the claim and the helper function's
own docstring. -/
theorem C10_code_bug :
    BlackWhiteList.exclude_session_id bw0 2 =
      .ok { bw0 with excluded_ids := some (.scalar 2) }
    ∧ ∀ l : List Int,
        BlackWhiteList.exclude_session_id bw0 2 ≠
          .ok { bw0 with excluded_ids := some (.lst l) } := by
  refine ⟨rfl, fun l h => ?_⟩
  rw [show BlackWhiteList.exclude_session_id bw0 2 =
    .ok { bw0 with excluded_ids := some (.scalar 2) } from rfl] at h
  simp [bw0] at h

/-- Witness for C9 at the concrete counter states 3 and `MAX_ID`. -/
theorem C9_id_generator_witness :
    (IDGenerator.next 3).1 = 4 ∧ (IDGenerator.next MAX_ID).1 = 1 := by
  have h3 := C9_id_generator.1 3 (by norm_num [MAX_ID_eq])
  have hm := C9_id_generator.1 MAX_ID (le_refl _)
  exact ⟨h3.2.2.1 (by norm_num [MAX_ID_eq]), hm.2.2.2 rfl⟩

end Aiowamp
